import Mathlib

/-!
Shallow embedding of the multi-agent orchestration core of the `sensai`
repository (modules `src/client/agents/common/base.py`, `types.py`,
`result_handler.py`, `runner.py`), together with theorems settling the
frozen claims about it.

The embedding is parameterised by an arbitrary type `V` of Python values
(the values stored in `context_variables` dictionaries and in parsed tool
keyword arguments); dictionaries are association lists with Python `dict`
semantics (insertion order preserved, per-key overwrite).
-/

namespace Sensai

/-- A Python `dict` keyed by strings, in insertion order. -/
abbrev Ctx (V : Type) := List (String × V)

/-- Python `d[k] = v`: replace the value in place if the key exists,
append the pair otherwise (insertion order is preserved). -/
def dictSet {V : Type} : Ctx V → String → V → Ctx V
  | [], k, v => [(k, v)]
  | (k', v') :: rest, k, v =>
      if k' = k then (k, v) :: rest else (k', v') :: dictSet rest k v

/-- Python `d.update(patch)`: set every pair of `patch` into `d`, in
order, so that for one key the later pair of `patch` wins. -/
def dictUpdate {V : Type} (d patch : Ctx V) : Ctx V :=
  patch.foldl (fun acc kv => dictSet acc kv.1 kv.2) d

/-- Python `d.get(k)` / `d[k]` lookup (first, hence only, binding). -/
def dictGet {V : Type} (d : Ctx V) (k : String) : Option V :=
  (d.find? (fun kv => kv.1 = k)).map (fun kv => kv.2)

/-- One model-requested tool invocation: `result_handler.py` reads
`tool_call.id`, `tool_call.function.name`, `tool_call.function.arguments`
(the arguments stay an undecoded JSON string until `json.loads`). -/
structure ToolCallReq where
  id : String
  name : String
  arguments : String
deriving DecidableEq, Repr

/-- A role-tagged history message.  Python passes heterogeneous dicts; the
embedding flattens the keys that ever occur (`role`, `content`, `sender`,
`tool_calls`, `tool_name`, `tool_call_id`) into one record, a missing key
being `none`. -/
structure Message where
  role : String
  content : Option String := none
  sender : Option String := none
  tool_calls : Option (List ToolCallReq) := none
  tool_name : Option String := none
  tool_call_id : Option String := none
deriving DecidableEq, Repr

mutual

/-- `base.py` `class Agent(BaseModel)`: name, model, instructions
(string or callable on the context), optional tool list (`functions`),
parallel flag, `tool_choice`, optional structured-output model
(`response_model`, identified here by its name), and the handoff policy
list `next_agent` (referenced by `runner.py` and the tests; absent
`next_agent` is the empty list, matching Python truthiness of `None`). -/
inductive Agent (V : Type) where
  | mk (name : String) (model : String)
       (instructions : String ⊕ (Ctx V → String))
       (functions : Option (List (ToolDef V)))
       (parallel_tool_calls : Bool)
       (tool_choice : Option String)
       (response_model : Option String)
       (next_agent : List (NextStep V))

/-- One registered tool callable: `f.__name__` and the call on parsed
keyword arguments. -/
inductive ToolDef (V : Type) where
  | mk (name : String) (impl : Ctx V → ToolRet V)

/-- The duck-typed return value of a tool, as `__handle_function_result`
distinguishes it: a `FuncResult`, an `Agent`, a string, or any other
object (represented by its `str()` image, `none` when `str()` raises). -/
inductive ToolRet (V : Type) where
  | funcResult (value : String) (agent : Option (Agent V)) (context_variables : Ctx V)
  | agent (a : Agent V)
  | str (s : String)
  | other (coerced : Option String)

/-- One entry of the `next_agent` policy list: an `Agent` or a function
of `(context_variables, history_msg)`. -/
inductive NextStep (V : Type) where
  | agent (a : Agent V)
  | func (f : Ctx V → Message → NextRet V)

/-- What a `next_agent` policy function returns: a `FuncResult`, or a
plain value taken as the next agent (`Agent` or `None`). -/
inductive NextRet (V : Type) where
  | funcResult (value : String) (agent : Option (Agent V)) (context_variables : Ctx V)
  | agent (a : Option (Agent V))

end

def Agent.name {V : Type} : Agent V → String
  | .mk n _ _ _ _ _ _ _ => n

def Agent.model {V : Type} : Agent V → String
  | .mk _ m _ _ _ _ _ _ => m

def Agent.instructions {V : Type} : Agent V → (String ⊕ (Ctx V → String))
  | .mk _ _ i _ _ _ _ _ => i

def Agent.functions {V : Type} : Agent V → Option (List (ToolDef V))
  | .mk _ _ _ fs _ _ _ _ => fs

def Agent.parallel_tool_calls {V : Type} : Agent V → Bool
  | .mk _ _ _ _ p _ _ _ => p

def Agent.tool_choice {V : Type} : Agent V → Option String
  | .mk _ _ _ _ _ t _ _ => t

def Agent.response_model {V : Type} : Agent V → Option String
  | .mk _ _ _ _ _ _ r _ => r

def Agent.next_agent {V : Type} : Agent V → List (NextStep V)
  | .mk _ _ _ _ _ _ _ n => n

def ToolDef.name {V : Type} : ToolDef V → String
  | .mk n _ => n

def ToolDef.impl {V : Type} : ToolDef V → (Ctx V → ToolRet V)
  | .mk _ f => f

/-- `types.py` `FuncResult`: value, optional agent, context patch. -/
structure FuncResult (V : Type) where
  value : String := ""
  agent : Option (Agent V) := none
  context_variables : Ctx V := []

/-- `types.py` `TaskResponse`: messages, optional agent, context
variables.  `result_handler.py` also uses it as the mutable
`partial_response` accumulator. -/
structure TaskResponse (V : Type) where
  messages : List Message := []
  agent : Option (Agent V) := none
  context_variables : Ctx V := []

/-- The Python exceptions the core can raise while running: `TypeError`
(iterating `None` where a list is required, e.g. `functions=None`),
`json.JSONDecodeError` from `json.loads` on malformed tool arguments
(the spec's `ArgumentParseError`), and the `TypeError` raised by
`__handle_function_result` when `str(result)` fails (the spec's
`ResultCoercionError`). -/
inductive RunErr where
  | typeError
  | argumentParse
  | resultCoercion
deriving DecidableEq, Repr

/-- `base.py` `Agent.get_instructions`: call the instructions with the
context variables when callable, return the string unchanged otherwise. -/
def Agent.get_instructions {V : Type} (a : Agent V) (c : Ctx V) : String :=
  match a.instructions with
  | .inl s => s
  | .inr f => f c

/-- `json.dumps(\x7b"assistant": agent.name\x7d)` as produced by
`__handle_function_result` when a tool returns an `Agent` directly. -/
def jsonAssistant (n : String) : String :=
  "\x7b\"assistant\": \"" ++ n ++ "\"\x7d"

/-- `result_handler.py` `ToolCallHandler.__handle_function_result`. -/
def handleFunctionResult {V : Type} : ToolRet V → Except RunErr (FuncResult V)
  | .funcResult v a c => .ok { value := v, agent := a, context_variables := c }
  | .agent a => .ok { value := jsonAssistant a.name, agent := some a, context_variables := [] }
  | .str s => .ok { value := s, agent := none, context_variables := [] }
  | .other (some r) => .ok { value := r, agent := none, context_variables := [] }
  | .other none => .error .resultCoercion

/-- `functions_map = \x7bf.__name__: f for f in functions\x7d`: a dict
comprehension, so a later function with the same name overwrites an
earlier one. -/
def buildMap {V : Type} (fns : List (ToolDef V)) : Ctx (ToolDef V) :=
  fns.foldl (fun m f => dictSet m f.name f) []

/-- The tool-result message emitted when the requested name is not in the
function map (`result_handler.py` lines 61-71). -/
def toolNotFoundMsg (tc : ToolCallReq) : Message :=
  { role := "tool", tool_name := some tc.name, tool_call_id := some tc.id,
    content := some ("Error: tool " ++ tc.name ++ " not found") }

/-- The tool-result message carrying a normalized tool outcome
(`result_handler.py` lines 75-82). -/
def toolResultMsg (tc : ToolCallReq) (value : String) : Message :=
  { role := "tool", tool_name := some tc.name, tool_call_id := some tc.id,
    content := some value }

/-- `result_handler.py` `ToolCallHandler.__handle_call` (with
`__execute_tool` inlined at its only call site): mutate the
`partial_response` accumulator for one request.  `dec` is `json.loads`
restricted to keyword-argument objects, `none` meaning a
`JSONDecodeError`.  Note that `result.context_variables` is never copied
into the accumulator. -/
def handleCall {V : Type} (dec : String → Option (Ctx V)) (map : Ctx (ToolDef V))
    (tc : ToolCallReq) (st : TaskResponse V) : Except RunErr (TaskResponse V) :=
  match dictGet map tc.name with
  | none => .ok { st with messages := st.messages ++ [toolNotFoundMsg tc] }
  | some f =>
    match dec tc.arguments with
    | none => .error .argumentParse
    | some args =>
      match handleFunctionResult (f.impl args) with
      | .error e => .error e
      | .ok r =>
        match r.agent with
        | some ag =>
          .ok { st with messages := st.messages ++ [toolResultMsg tc r.value], agent := some ag }
        | none =>
          .ok { st with messages := st.messages ++ [toolResultMsg tc r.value] }

/-- The `for tool_call in tool_calls` loop of `handle_tool_calls`,
threading the mutated `partial_response`. -/
def handleCallsFrom {V : Type} (dec : String → Option (Ctx V)) (map : Ctx (ToolDef V)) :
    TaskResponse V → List ToolCallReq → Except RunErr (TaskResponse V)
  | st, [] => .ok st
  | st, tc :: rest =>
    match handleCall dec map tc st with
    | .error e => .error e
    | .ok st' => handleCallsFrom dec map st' rest

/-- `result_handler.py` `ToolCallHandler.handle_tool_calls`: build the
function map (a `TypeError` if `functions` is `None`), start from an
empty `TaskResponse`, and process the requests in order. -/
def handleToolCalls {V : Type} (dec : String → Option (Ctx V))
    (tool_calls : List ToolCallReq) (functions : Option (List (ToolDef V))) :
    Except RunErr (TaskResponse V) :=
  match functions with
  | none => .error .typeError
  | some fns =>
    handleCallsFrom dec (buildMap fns) { messages := [], agent := none, context_variables := [] } tool_calls

/-- A backend-consumable tool declaration.  Modelled from the spec:
`function_to_json` lives in `client/agents/common/utils.py`, which is not
in the source tree; per the spec it derives a deterministic,
name-addressable declaration from the callable, so the embedding keeps
the name (the only part the core reads back). -/
structure ToolSpec where
  name : String
deriving DecidableEq, Repr

/-- `base.py` `Agent.tools_in_json`: `[function_to_json(f) for f in
self.functions]` — iterating `functions=None` raises a `TypeError`. -/
def tools_in_json {V : Type} (a : Agent V) : Except RunErr (List ToolSpec) :=
  match a.functions with
  | none => .error .typeError
  | some fs => .ok (fs.map (fun f => { name := f.name }))

/-- The `llm_params` dict built by `__create_inference_request` and
adjusted by `run`.  A field of type `Option _` that is `none` models the
key being absent from the dict; `tool_choice` and `response_model` carry
an inner `Option` because the present key may hold Python `None`. -/
structure Params where
  model : String
  messages : List Message
  tool_choice : Option (Option String)
  max_tokens : Nat
  parallel_tool_calls : Option Bool := none
  tools : Option (List ToolSpec) := none
  response_model : Option (Option String) := none
deriving DecidableEq, Repr

/-- `runner.py` `AppRunner.__create_inference_request`: system message
from the resolved instructions followed by the history, the always-set
`model`, `tool_choice` and `max_tokens` keys, `tools` and
`parallel_tool_calls` only when the tool manifest is non-empty, and
`response_model` only when the agent declares one.  (The
`defaultdict(str, ...)` wrapping of the context only changes what an
instruction callable observes on missing keys, which the embedding keeps
opaque.) -/
def createInferenceRequest {V : Type} (a : Agent V) (history : List Message)
    (c : Ctx V) (token_limit : Nat) : Except RunErr Params :=
  match tools_in_json a with
  | .error e => .error e
  | .ok tools =>
    let instructions := a.get_instructions c
    let p : Params :=
      { model := a.model
        messages := { role := "system", content := some instructions } :: history
        tool_choice := some a.tool_choice
        max_tokens := token_limit }
    let p := match tools with
      | [] => p
      | ts => { p with tools := some ts, parallel_tool_calls := some a.parallel_tool_calls }
    let p := match a.response_model with
      | none => p
      | some s => { p with response_model := some (some s) }
    .ok p

/-- Python truthiness of `functions`: `None` and `[]` are falsy. -/
def truthyFns {V : Type} : Option (List (ToolDef V)) → Bool
  | none => false
  | some [] => false
  | some (_ :: _) => true

/-- `runner.py` `run` lines 50-60: choose the client and adjust
`llm_params`.  Tool-calling agents without a response model drop any
`response_model` key; otherwise the instructor client is used, `tools`
and `parallel_tool_calls` are deleted when present, and a missing
response model is passed explicitly as `response_model = None`. -/
def adjustParams {V : Type} (a : Agent V) (p : Params) : Params :=
  if truthyFns a.functions && a.response_model.isNone then
    { p with response_model := none }
  else
    let p := match p.tools with
      | some _ => { p with tools := none, parallel_tool_calls := none }
      | none => p
    match a.response_model with
    | none => { p with response_model := some none }
    | some _ => p

/-- The model backend's answer to one request, as the two client stacks
expose it: `response.json()` (read when the agent has a response model)
and `response.choices[0].message` (read otherwise). -/
structure ChoiceMessage where
  content : Option String := none
  tool_calls : Option (List ToolCallReq) := none
deriving DecidableEq, Repr

structure BackendResp where
  asJson : String := ""
  choiceMsg : ChoiceMessage := {}
deriving DecidableEq, Repr

/-- The external model backend: one response per request. -/
abbrev Backend := Params → BackendResp

/-- Python truthiness of `history_msg.get("tool_calls")`: `None` and the
empty list are falsy. -/
def truthyCalls : Option (List ToolCallReq) → Option (List ToolCallReq)
  | some (x :: xs) => some (x :: xs)
  | _ => none

/-- The `history_msg` built from the backend response (`runner.py` lines
67-79): for a response-model agent an assistant message carrying
`response.json()` and explicitly no tool calls, otherwise the dump of
`response.choices[0].message` with the `sender` key added. -/
def responseMsg {V : Type} (a : Agent V) (resp : BackendResp) : Message :=
  if a.response_model.isSome then
    { role := "assistant", content := some resp.asJson,
      sender := some a.name, tool_calls := none }
  else
    { role := "assistant", content := resp.choiceMsg.content,
      sender := some a.name, tool_calls := resp.choiceMsg.tool_calls }

/-- `if patch: d.update(patch)` — the guarded merge the runner applies
to the running context (Python dict truthiness: an empty patch merges
nothing). -/
def mergeIfTruthy {V : Type} (d patch : Ctx V) : Ctx V :=
  match patch with
  | [] => d
  | _ => dictUpdate d patch

/-- The outcome of one iteration of the `while` loop in `run`: `done`
for `break`, `cont` for `continue` with the (possibly new) active agent,
history and context. -/
inductive StepRes (V : Type) where
  | done (a : Agent V) (h : List Message) (c : Ctx V)
  | cont (a : Agent V) (h : List Message) (c : Ctx V)

/-- One iteration of the `while` loop of `runner.py` `run` (lines
39-130): build and adjust the request, call the backend once, append the
assistant message, then either resolve tool calls (always looping
afterwards, switching agent when the tool response carries one), or
consult the `next_agent` policy (looping with the returned agent, or
with the same agent when the policy yields none), or `break`. -/
def turnStep {V : Type} (B : Backend) (dec : String → Option (Ctx V)) (token_limit : Nat)
    (a : Agent V) (h : List Message) (c : Ctx V) : Except RunErr (StepRes V) :=
  match createInferenceRequest a h c token_limit with
  | .error e => .error e
  | .ok p0 =>
    match truthyCalls (responseMsg a (B (adjustParams a p0))).tool_calls with
    | some calls =>
      match handleToolCalls dec calls a.functions with
      | .error e => .error e
      | .ok tr =>
        match tr.agent with
        | some na =>
          .ok (.cont na ((h ++ [responseMsg a (B (adjustParams a p0))]) ++ tr.messages)
                (mergeIfTruthy c tr.context_variables))
        | none =>
          .ok (.cont a ((h ++ [responseMsg a (B (adjustParams a p0))]) ++ tr.messages)
                (mergeIfTruthy c tr.context_variables))
    | none =>
      match a.next_agent with
      | [] => .ok (.done a (h ++ [responseMsg a (B (adjustParams a p0))]) c)
      | next_step :: _ =>
        match next_step with
        | .agent na => .ok (.cont na (h ++ [responseMsg a (B (adjustParams a p0))]) c)
        | .func f =>
          match f c (responseMsg a (B (adjustParams a p0))) with
          | .funcResult _ oa cv =>
            match oa with
            | some na =>
              .ok (.cont na (h ++ [responseMsg a (B (adjustParams a p0))]) (mergeIfTruthy c cv))
            | none =>
              .ok (.cont a (h ++ [responseMsg a (B (adjustParams a p0))]) (mergeIfTruthy c cv))
          | .agent oa =>
            match oa with
            | some na => .ok (.cont na (h ++ [responseMsg a (B (adjustParams a p0))]) c)
            | none => .ok (.cont a (h ++ [responseMsg a (B (adjustParams a p0))]) c)

/-- The `while loop_count < self.config.max_interactions` loop, with the
remaining budget as fuel: fuel `0` is the loop guard failing, which
falls through to the normal `return`. -/
def runLoop {V : Type} (B : Backend) (dec : String → Option (Ctx V)) (token_limit : Nat) :
    Nat → Agent V → List Message → Ctx V → Except RunErr (Agent V × List Message × Ctx V)
  | 0, a, h, c => .ok (a, h, c)
  | n + 1, a, h, c =>
    match turnStep B dec token_limit a h c with
    | .error e => .error e
    | .ok (.done a' h' c') => .ok (a', h', c')
    | .ok (.cont a' h' c') => runLoop B dec token_limit n a' h' c'

/-- `base.py` `AgentConfig` (the fields the run loop reads). -/
structure AgentConfig where
  max_interactions : Nat := 3
  token_limit : Nat := 5000
deriving DecidableEq, Repr

/-- The new user message `run` appends (`runner.py` line 35). -/
def userMessage (query : String) : Message :=
  { role := "user", content := some query }

/-- `runner.py` `AppRunner.run`: default the context, deep-copy the
stored history and append the user query, remember `init_len`, drive the
loop, and return the slice of history past `init_len` with the final
agent and context. -/
def run {V : Type} (cfg : AgentConfig) (B : Backend) (dec : String → Option (Ctx V))
    (selfMessages : List Message) (agent : Agent V) (query : String)
    (context_variables : Option (Ctx V)) : Except RunErr (TaskResponse V) :=
  match runLoop B dec cfg.token_limit cfg.max_interactions agent
      (selfMessages ++ [userMessage query]) (context_variables.getD []) with
  | .error e => .error e
  | .ok (a, h, c) =>
    .ok { messages := h.drop (selfMessages ++ [userMessage query]).length,
          agent := some a, context_variables := c }

/-- The state an `AppRunner` object carries between `run` invocations
(`runner.py` `__init__`): its configuration and the persistent
`self.messages` history. -/
structure AppRunner (V : Type) where
  config : AgentConfig
  messages : List Message := []

/-- `AppRunner.run` as a method on the runner state: the body reads
`self.config` and deep-copies `self.messages` but contains no assignment
to either, so the post state is the input state. -/
def AppRunner.runS {V : Type} (self : AppRunner V) (B : Backend)
    (dec : String → Option (Ctx V)) (agent : Agent V) (query : String)
    (context_variables : Option (Ctx V)) :
    Except RunErr (TaskResponse V) × AppRunner V :=
  (run self.config B dec self.messages agent query context_variables, self)

/-- `base.py` `class Agent(BaseModel)` declares its fields with defaults
and no validator of any kind: pydantic construction checks field types
only, so every well-typed combination of fields — in particular
non-empty `functions` together with a `response_model` — constructs
successfully.  The `Except` codomain records that no code path returns
an error. -/
def Agent.construct {V : Type} (name model : String)
    (instructions : String ⊕ (Ctx V → String))
    (functions : Option (List (ToolDef V))) (parallel_tool_calls : Bool)
    (tool_choice : Option String) (response_model : Option String)
    (next_agent : List (NextStep V)) : Except RunErr (Agent V) :=
  .ok (.mk name model instructions functions parallel_tool_calls tool_choice
        response_model next_agent)

/-- Last-write-wins combination of an accumulated optional agent with
the optional agent of one outcome: a present agent overwrites, an absent
one leaves the accumulator unchanged. -/
def lastWins {A : Type} (old new : Option A) : Option A :=
  match new with
  | some a => some a
  | none => old

/-- The agent contributed by one tool-call request, observed by running
`__handle_call` on a fresh empty accumulator. -/
def callAgent {V : Type} (dec : String → Option (Ctx V)) (map : Ctx (ToolDef V))
    (tc : ToolCallReq) : Option (Agent V) :=
  match handleCall dec map tc { messages := [], agent := none, context_variables := [] } with
  | .ok s => s.agent
  | .error _ => none

/-- The history carried by a loop-step outcome. -/
def stepHistory {V : Type} : StepRes V → List Message
  | .done _ h _ => h
  | .cont _ h _ => h

/-- Number of assistant-role messages in a history slice; each loop
iteration appends exactly one, so this counts the turns of a run. -/
def countAssistant (h : List Message) : Nat :=
  (h.filter (fun m => m.role = "assistant")).length

/-! Concrete gadgets used by counterexamples and witnesses.  The value
type is instantiated to `String`; `decJ` plays `json.loads`, decoding
the literal `"good"` to an empty keyword dictionary and failing on
everything else. -/

def decJ : String → Option (Ctx String) :=
  fun s => if s = "good" then some [] else none

/-- A tool that returns a `FuncResult` carrying a context patch. -/
def exTool : ToolDef String := .mk "t1" (fun _ => .funcResult "ok" none [("k", "v")])

/-- A tool-calling agent registering `exTool`. -/
def exAgentTools : Agent String := .mk "A" "m" (.inl "sys") (some [exTool]) true none none []

/-- A backend that requests `t1` with well-formed arguments on every
turn. -/
def exBackendTools : Backend :=
  fun _ => { asJson := "", choiceMsg := { content := none, tool_calls := some [⟨"id1", "t1", "good"⟩] } }

/-- A backend that requests `t1` with malformed JSON arguments. -/
def exBackendBadArgs : Backend :=
  fun _ => { asJson := "", choiceMsg := { content := none, tool_calls := some [⟨"id1", "t1", "bad"⟩] } }

/-- A structured-output agent whose handoff policy function always
returns an outcome carrying no agent. -/
def exAgentPolicy : Agent String :=
  .mk "P" "m" (.inl "sys") (some []) true none (some "Reply")
    [.func (fun _ _ => .funcResult "no" none [])]

/-- A backend returning a plain structured reply with no tool calls. -/
def exBackendPlain : Backend :=
  fun _ => { asJson := "OUT", choiceMsg := { content := some "hi", tool_calls := none } }

/-- Two agents used as handoff targets. -/
def exAgentB1 : Agent String := .mk "B1" "m" (.inl "sys") (some []) true none none []

def exAgentB2 : Agent String := .mk "B2" "m" (.inl "sys") (some []) true none none []

/-- Tools handing off to `exAgentB1` and `exAgentB2`, and one returning
no agent. -/
def exToolToB1 : ToolDef String := .mk "toB1" (fun _ => .funcResult "going to B1" (some exAgentB1) [])

def exToolToB2 : ToolDef String := .mk "toB2" (fun _ => .funcResult "going to B2" (some exAgentB2) [])

def exToolPlain : ToolDef String := .mk "plain" (fun _ => .str "just text")

/-- A tool that violates its contract: `str(result)` raises. -/
def exToolBroken : ToolDef String := .mk "broken" (fun _ => .other none)

def exMapHandoff : Ctx (ToolDef String) := buildMap [exToolToB1, exToolToB2, exToolPlain]

/-- An agent declaring both a non-empty tool list and an output schema. -/
def exAgentBoth : Agent String :=
  .mk "both" "m" (.inl "sys") (some [exToolPlain]) true none (some "Schema") []

/-- The `llm_params` built for `exAgentPolicy` on an empty history. -/
def exParamsPolicy : Params :=
  { model := "m", messages := [{ role := "system", content := some "sys" }],
    tool_choice := some none, max_tokens := 100,
    response_model := some (some "Reply") }

/-- A request for a name no tool of the agent carries. -/
def exCallGhost : ToolCallReq := ⟨"id0", "ghost", "x"⟩

def exCallB1 : ToolCallReq := ⟨"c1", "toB1", "good"⟩

def exCallB2 : ToolCallReq := ⟨"c2", "toB2", "good"⟩

def exCallPlain : ToolCallReq := ⟨"c3", "plain", "good"⟩

/-- The assistant message `run` records for `exAgentTools` against
`exBackendTools`. -/
def exAssistantMsg : Message :=
  { role := "assistant", content := none, sender := some "A",
    tool_calls := some [⟨"id1", "t1", "good"⟩] }

/-- The tool-result message produced by `exTool`. -/
def exToolMsg : Message :=
  { role := "tool", content := some "ok", tool_name := some "t1",
    tool_call_id := some "id1" }

/-- The `TaskResponse` of a three-turn run of `exAgentTools` against
`exBackendTools` — note the context patch of `exTool` is absent. -/
def exRunResultTools : TaskResponse String :=
  { messages := [exAssistantMsg, exToolMsg, exAssistantMsg, exToolMsg, exAssistantMsg, exToolMsg],
    agent := some exAgentTools, context_variables := [] }

/-- The accumulator after `exCallB1`, `exCallB2`, `exCallPlain`. -/
def exHandoffResult : TaskResponse String :=
  { messages := [toolResultMsg exCallB1 "going to B1", toolResultMsg exCallB2 "going to B2",
                 toolResultMsg exCallPlain "just text"],
    agent := some exAgentB2, context_variables := [] }

/-- The well-formed request for `exTool`. -/
def exCallT1 : ToolCallReq := ⟨"id1", "t1", "good"⟩

/-- The resolver's response to `exCallT1` alone: one tool message, no
agent, and — although `exTool` returned the patch `[("k", "v")]` — an
empty context patch. -/
def exC2Res : TaskResponse String :=
  { messages := [toolResultMsg exCallT1 "ok"], agent := none, context_variables := [] }

/-!  Theorems settling the claims. -/

/-- Helper: `__handle_call` never changes the accumulator's
`context_variables` — no branch of it touches that field. -/
theorem handleCall_context_eq {V : Type} (dec : String → Option (Ctx V))
    (map : Ctx (ToolDef V)) (tc : ToolCallReq) (st st' : TaskResponse V)
    (h : handleCall dec map tc st = .ok st') :
    st'.context_variables = st.context_variables := by
  unfold handleCall at h
  split at h
  · simp only [Except.ok.injEq] at h
    subst h; rfl
  · split at h
    · simp at h
    · split at h
      · simp at h
      · split at h
        · simp only [Except.ok.injEq] at h
          subst h; rfl
        · simp only [Except.ok.injEq] at h
          subst h; rfl

/-- Helper: the request loop of `handle_tool_calls` preserves the
accumulator's `context_variables`. -/
theorem handleCallsFrom_context_eq {V : Type} (dec : String → Option (Ctx V))
    (map : Ctx (ToolDef V)) (calls : List ToolCallReq) :
    ∀ (st st' : TaskResponse V), handleCallsFrom dec map st calls = .ok st' →
      st'.context_variables = st.context_variables := by
  induction calls with
  | nil =>
    intro st st' h
    simp only [handleCallsFrom, Except.ok.injEq] at h
    subst h; rfl
  | cons tc rest ih =>
    intro st st' h
    unfold handleCallsFrom at h
    split at h
    · simp at h
    · next st1 hst1 =>
        rw [ih st1 st' h, handleCall_context_eq dec map tc st st1 hst1]

/-- Helper: `__handle_call` combines the accumulated agent with the
call's own outcome agent by last-write-wins. -/
theorem handleCall_agent_eq {V : Type} (dec : String → Option (Ctx V))
    (map : Ctx (ToolDef V)) (tc : ToolCallReq) (st st' : TaskResponse V)
    (h : handleCall dec map tc st = .ok st') :
    st'.agent = lastWins st.agent (callAgent dec map tc) := by
  unfold handleCall at h
  split at h
  · next hd =>
      simp only [Except.ok.injEq] at h
      subst h
      simp [callAgent, handleCall, hd, lastWins]
  · next f hd =>
      split at h
      · simp at h
      · next args hdec =>
          split at h
          · simp at h
          · next r hr =>
              split at h
              · next ag hag =>
                  simp only [Except.ok.injEq] at h
                  subst h
                  simp [callAgent, handleCall, hd, hdec, hr, hag, lastWins]
              · next hag =>
                  simp only [Except.ok.injEq] at h
                  subst h
                  simp [callAgent, handleCall, hd, hdec, hr, hag, lastWins]

/-- Claim C1, counterexample: constructing an agent with a non-empty
tool list and a declared output schema does not fail — `base.py` defines
no validator, so `Agent.construct` returns the agent, whose `functions`
are non-empty and whose `response_model` is set.  This refutes the claim
that such a construction fails with a `ConfigurationError`. -/
theorem claim_C1_counterexample :
    Agent.construct (V := String) "both" "m" (.inl "sys") (some [exToolPlain]) true none
        (some "Schema") [] = .ok exAgentBoth ∧
    exAgentBoth.functions = some [exToolPlain] ∧
    exAgentBoth.response_model = some "Schema" :=
  ⟨rfl, rfl, rfl⟩

/-- Claim C1 (amended): construction of an agent never fails — pydantic
validates the field types only, so every combination of fields,
including non-empty `functions` together with an `output_schema`,
constructs successfully and preserves all fields. -/
theorem claim_C1_amended : ∀ (V : Type) (name model : String)
    (instructions : String ⊕ (Ctx V → String))
    (functions : Option (List (ToolDef V))) (ptc : Bool)
    (tc : Option String) (rm : Option String) (na : List (NextStep V)),
    Agent.construct name model instructions functions ptc tc rm na
      = .ok (.mk name model instructions functions ptc tc rm na) := by
  intros; rfl

/-- Claim C3, counterexample: a run of two interactions with an agent
whose handoff policy function always returns an outcome carrying no
agent performs two backend turns with the same agent — the turn in which
the policy yields no next agent is not terminal, the loop runs again
with the same agent until the budget is exhausted. -/
theorem claim_C3_counterexample :
    Except.map (fun r => (r.messages.length, countAssistant r.messages, r.agent.map Agent.name))
        (run { max_interactions := 2, token_limit := 10 } exBackendPlain decJ []
          exAgentPolicy "q" none)
      = .ok (2, 2, some "P") := rfl

/-- Claim C4: a tool-call request whose name is not registered makes the
resolver append a tool-role message whose content is exactly
`"Error: tool <name> not found"`, raise nothing, and carry on with the
remaining requests of the turn from the extended accumulator. -/
theorem claim_C4_thm : ∀ (V : Type) (dec : String → Option (Ctx V))
    (map : Ctx (ToolDef V)) (tc : ToolCallReq) (rest : List ToolCallReq)
    (st : TaskResponse V),
    dictGet map tc.name = none →
    handleCallsFrom dec map st (tc :: rest)
        = handleCallsFrom dec map
            { st with messages := st.messages ++ [toolNotFoundMsg tc] } rest ∧
      (toolNotFoundMsg tc).content = some ("Error: tool " ++ tc.name ++ " not found") := by
  intro V dec map tc rest st hnf
  refine ⟨?_, rfl⟩
  simp [handleCallsFrom, handleCall, hnf]

/-- Claim C4, witness: the unregistered name `ghost` against an empty
tool map. -/
theorem claim_C4_witness :
    dictGet ([] : Ctx (ToolDef String)) exCallGhost.name = none ∧
    (handleCallsFrom decJ [] ({} : TaskResponse String) (exCallGhost :: [])
        = handleCallsFrom decJ []
            { ({} : TaskResponse String) with
              messages := ({} : TaskResponse String).messages ++ [toolNotFoundMsg exCallGhost] } [] ∧
      (toolNotFoundMsg exCallGhost).content
        = some ("Error: tool " ++ exCallGhost.name ++ " not found")) :=
  ⟨rfl, claim_C4_thm String decJ [] exCallGhost [] {} rfl⟩

/-- Claim C7, counterexample: for a structured-output agent the
`llm_params` sent to the backend still contain the `tool_choice` key
(holding the agent's `tool_choice`, Python `None` by default) — the
claim that all tool-related fields, tool-choice included, are absent is
refuted. -/
theorem claim_C7_counterexample :
    Except.map (fun p => ((adjustParams exAgentPolicy p).tool_choice,
        (adjustParams exAgentPolicy p).tools,
        (adjustParams exAgentPolicy p).parallel_tool_calls,
        (adjustParams exAgentPolicy p).response_model))
        (createInferenceRequest exAgentPolicy [] ([] : Ctx String) 100)
      = .ok (some none, none, none, some (some "Reply")) := rfl

/-- Claim C7 (amended): for every agent that declares an output schema
(and whose `functions` field is a list, as required for the request
builder not to raise), the request sent to the backend contains the
schema and omits the tool manifest and the parallel-call flag — but the
`tool_choice` key is always present, carrying the agent's `tool_choice`
value. -/
theorem claim_C7_amended : ∀ (V : Type) (a : Agent V) (h : List Message)
    (c : Ctx V) (tl : Nat) (s : String) (fs : List (ToolDef V)),
    a.response_model = some s →
    a.functions = some fs →
    (∃ p0, createInferenceRequest a h c tl = .ok p0) ∧
    ∀ p0, createInferenceRequest a h c tl = .ok p0 →
      (adjustParams a p0).tools = none ∧
      (adjustParams a p0).parallel_tool_calls = none ∧
      (adjustParams a p0).response_model = some (some s) ∧
      (adjustParams a p0).tool_choice = some a.tool_choice := by
  intro V a h c tl s fs hrm hfs
  cases fs with
  | nil =>
    constructor
    · simp [createInferenceRequest, tools_in_json, hfs, hrm]
    · intro p0 hp0
      simp [createInferenceRequest, tools_in_json, hfs, hrm] at hp0
      subst hp0
      simp [adjustParams, truthyFns, hfs, hrm]
  | cons f fs' =>
    constructor
    · simp [createInferenceRequest, tools_in_json, hfs, hrm]
    · intro p0 hp0
      simp [createInferenceRequest, tools_in_json, hfs, hrm] at hp0
      subst hp0
      simp [adjustParams, truthyFns, hfs, hrm]

/-- Claim C7 (amended), witness: the structured-output agent
`exAgentPolicy` with its empty tool list. -/
theorem claim_C7_witness :
    exAgentPolicy.response_model = some "Reply" ∧
    exAgentPolicy.functions = some [] ∧
    createInferenceRequest exAgentPolicy [] ([] : Ctx String) 100 = .ok exParamsPolicy ∧
    (adjustParams exAgentPolicy exParamsPolicy).tools = none ∧
    (adjustParams exAgentPolicy exParamsPolicy).parallel_tool_calls = none ∧
    (adjustParams exAgentPolicy exParamsPolicy).response_model = some (some "Reply") ∧
    (adjustParams exAgentPolicy exParamsPolicy).tool_choice = some exAgentPolicy.tool_choice :=
  ⟨rfl, rfl, rfl,
    (claim_C7_amended String exAgentPolicy [] [] 100 "Reply" [] rfl rfl).2 exParamsPolicy rfl⟩

/-- Claim C10: `run` leaves the runner's stored message history
untouched — the post state equals the input state, so a second run
started from the post state behaves exactly as one started from the
original state: consecutive runs all start from the same stored
history. -/
theorem claim_C10_thm : ∀ (V : Type) (self : AppRunner V) (B : Backend)
    (dec : String → Option (Ctx V)) (a : Agent V) (q : String) (c : Option (Ctx V))
    (a2 : Agent V) (q2 : String) (c2 : Option (Ctx V)),
    (AppRunner.runS self B dec a q c).2 = self ∧
    AppRunner.runS ((AppRunner.runS self B dec a q c).2) B dec a2 q2 c2
      = AppRunner.runS self B dec a2 q2 c2 := by
  intros; exact ⟨rfl, rfl⟩

/-- Claim C2: the claim says same-turn tool context patches are merged
into the running context; the code drops them.  `ToolCallHandler`
initialises its accumulator with empty `context_variables` and
`__handle_call` never copies `result.context_variables` into it, so the
resolver's response always carries an empty context patch and the
merging code at `runner.py` lines 95-96 never fires: no tool's context
patch ever reaches the running context. -/
theorem claim_C2_thm : ∀ (V : Type) (dec : String → Option (Ctx V))
    (calls : List ToolCallReq) (fns : Option (List (ToolDef V)))
    (resp : TaskResponse V),
    handleToolCalls dec calls fns = .ok resp → resp.context_variables = [] := by
  intro V dec calls fns resp h
  unfold handleToolCalls at h
  split at h
  · simp at h
  · exact handleCallsFrom_context_eq dec _ calls _ resp h

/-- Claim C2, witness: one call to `exTool`, which returns the context
patch `[("k", "v")]` — the resolver's response still carries no context
variables. -/
theorem claim_C2_witness :
    handleToolCalls decJ [exCallT1] (some [exTool]) = .ok exC2Res ∧
    exC2Res.context_variables = [] :=
  ⟨rfl, claim_C2_thm String decJ [exCallT1] (some [exTool]) exC2Res rfl⟩

/-- Claim C6: across the requests of one turn, the agent carried by the
resolver's response is the last-write-wins fold of each call's outcome
agent over the initial accumulator agent: a call whose outcome carries a
`next_agent` overwrites the previous value, and a call without one
leaves it unchanged, so the last such outcome in request order wins. -/
theorem claim_C6_thm : ∀ (V : Type) (dec : String → Option (Ctx V))
    (map : Ctx (ToolDef V)) (calls : List ToolCallReq) (st st' : TaskResponse V),
    handleCallsFrom dec map st calls = .ok st' →
    st'.agent = calls.foldl (fun acc tc => lastWins acc (callAgent dec map tc)) st.agent := by
  intro V dec map calls
  induction calls with
  | nil =>
    intro st st' h
    simp only [handleCallsFrom, Except.ok.injEq] at h
    subst h
    simp
  | cons tc rest ih =>
    intro st st' h
    unfold handleCallsFrom at h
    split at h
    · simp at h
    · next st1 hst1 =>
        have hthis := ih st1 st' h
        simp only [List.foldl_cons]
        rw [← handleCall_agent_eq dec map tc st st1 hst1]
        exact hthis

/-- Helper: `countAssistant` is additive across concatenation. -/
theorem countAssistant_append (x y : List Message) :
    countAssistant (x ++ y) = countAssistant x + countAssistant y := by
  simp [countAssistant, List.filter_append]

/-- Helper: a single message contributes at most one assistant turn. -/
theorem countAssistant_singleton_le (m : Message) : countAssistant [m] ≤ 1 := by
  simp only [countAssistant, List.filter]
  split <;> simp

/-- Helper: `__handle_call` only ever appends tool-role messages, so it
does not change the number of assistant messages. -/
theorem handleCall_countA {V : Type} (dec : String → Option (Ctx V))
    (map : Ctx (ToolDef V)) (tc : ToolCallReq) (st st' : TaskResponse V)
    (h : handleCall dec map tc st = .ok st') :
    countAssistant st'.messages = countAssistant st.messages := by
  unfold handleCall at h
  split at h
  · simp only [Except.ok.injEq] at h
    subst h
    show countAssistant (st.messages ++ [toolNotFoundMsg tc]) = countAssistant st.messages
    rw [countAssistant_append]
    rfl
  · split at h
    · simp at h
    · split at h
      · simp at h
      · next r hr =>
          split at h
          · simp only [Except.ok.injEq] at h
            subst h
            show countAssistant (st.messages ++ [toolResultMsg tc r.value])
                = countAssistant st.messages
            rw [countAssistant_append]
            rfl
          · simp only [Except.ok.injEq] at h
            subst h
            show countAssistant (st.messages ++ [toolResultMsg tc r.value])
                = countAssistant st.messages
            rw [countAssistant_append]
            rfl

/-- Helper: the request loop preserves the assistant count of the
accumulator. -/
theorem handleCallsFrom_countA {V : Type} (dec : String → Option (Ctx V))
    (map : Ctx (ToolDef V)) (calls : List ToolCallReq) :
    ∀ (st st' : TaskResponse V), handleCallsFrom dec map st calls = .ok st' →
      countAssistant st'.messages = countAssistant st.messages := by
  induction calls with
  | nil =>
    intro st st' h
    simp only [handleCallsFrom, Except.ok.injEq] at h
    subst h; rfl
  | cons tc rest ih =>
    intro st st' h
    unfold handleCallsFrom at h
    split at h
    · simp at h
    · next st1 hst1 =>
        rw [ih st1 st' h, handleCall_countA dec map tc st st1 hst1]

/-- Helper: the resolver's result messages contain no assistant
message. -/
theorem handleToolCalls_countA {V : Type} (dec : String → Option (Ctx V))
    (calls : List ToolCallReq) (fns : Option (List (ToolDef V)))
    (tr : TaskResponse V) (h : handleToolCalls dec calls fns = .ok tr) :
    countAssistant tr.messages = 0 := by
  unfold handleToolCalls at h
  split at h
  · simp at h
  · exact handleCallsFrom_countA dec _ calls _ tr h

/-- Helper: a successful loop iteration extends the history by exactly
one assistant message plus tool-role messages: the appended slice has at
most one assistant message. -/
theorem turnStep_hist {V : Type} (B : Backend) (dec : String → Option (Ctx V))
    (tl : Nat) (a : Agent V) (h : List Message) (c : Ctx V) (res : StepRes V)
    (hs : turnStep B dec tl a h c = .ok res) :
    ∃ t, stepHistory res = h ++ t ∧ countAssistant t ≤ 1 := by
  unfold turnStep at hs
  split at hs
  · simp at hs
  · next p0 hp0 =>
      split at hs
      · next calls hcalls =>
          split at hs
          · simp at hs
          · next tr htr =>
              have h0 : countAssistant tr.messages = 0 :=
                handleToolCalls_countA dec calls a.functions tr htr
              have hle : countAssistant (responseMsg a (B (adjustParams a p0)) :: tr.messages) ≤ 1 := by
                have h1 := countAssistant_singleton_le (responseMsg a (B (adjustParams a p0)))
                have h2 : countAssistant (responseMsg a (B (adjustParams a p0)) :: tr.messages)
                    = countAssistant [responseMsg a (B (adjustParams a p0))]
                      + countAssistant tr.messages :=
                  countAssistant_append [responseMsg a (B (adjustParams a p0))] tr.messages
                omega
              split at hs
              · simp only [Except.ok.injEq] at hs
                subst hs
                exact ⟨responseMsg a (B (adjustParams a p0)) :: tr.messages,
                  by simp [stepHistory, List.append_assoc], hle⟩
              · simp only [Except.ok.injEq] at hs
                subst hs
                exact ⟨responseMsg a (B (adjustParams a p0)) :: tr.messages,
                  by simp [stepHistory, List.append_assoc], hle⟩
      · next hcalls =>
          split at hs
          · simp only [Except.ok.injEq] at hs
            subst hs
            exact ⟨[responseMsg a (B (adjustParams a p0))], rfl, countAssistant_singleton_le _⟩
          · next next_step rest hna =>
              split at hs
              · next na =>
                  simp only [Except.ok.injEq] at hs
                  subst hs
                  exact ⟨[responseMsg a (B (adjustParams a p0))], rfl, countAssistant_singleton_le _⟩
              · next f =>
                  split at hs
                  · next v oa cv hf =>
                      split at hs
                      · next na hoa =>
                          simp only [Except.ok.injEq] at hs
                          subst hs
                          exact ⟨[responseMsg a (B (adjustParams a p0))], rfl,
                            countAssistant_singleton_le _⟩
                      · next hoa =>
                          simp only [Except.ok.injEq] at hs
                          subst hs
                          exact ⟨[responseMsg a (B (adjustParams a p0))], rfl,
                            countAssistant_singleton_le _⟩
                  · next oa hf =>
                      split at hs
                      · next na hoa =>
                          simp only [Except.ok.injEq] at hs
                          subst hs
                          exact ⟨[responseMsg a (B (adjustParams a p0))], rfl,
                            countAssistant_singleton_le _⟩
                      · next hoa =>
                          simp only [Except.ok.injEq] at hs
                          subst hs
                          exact ⟨[responseMsg a (B (adjustParams a p0))], rfl,
                            countAssistant_singleton_le _⟩

/-- Helper: a successful run loop only appends to the history it was
given, and the appended slice holds at most `fuel` assistant messages
(one per backend call). -/
theorem runLoop_hist {V : Type} (B : Backend) (dec : String → Option (Ctx V)) (tl : Nat) :
    ∀ (n : Nat) (a : Agent V) (h : List Message) (c : Ctx V)
      (a' : Agent V) (h' : List Message) (c' : Ctx V),
      runLoop B dec tl n a h c = .ok (a', h', c') →
      ∃ t, h' = h ++ t ∧ countAssistant t ≤ n := by
  intro n
  induction n with
  | zero =>
    intro a h c a' h' c' hr
    simp only [runLoop, Except.ok.injEq, Prod.mk.injEq] at hr
    obtain ⟨-, rfl, -⟩ := hr
    exact ⟨[], by simp, by simp [countAssistant]⟩
  | succ n ih =>
    intro a h c a' h' c' hr
    unfold runLoop at hr
    split at hr
    · simp at hr
    · next a1 h1 c1 hstep =>
        simp only [Except.ok.injEq, Prod.mk.injEq] at hr
        obtain ⟨-, rfl, -⟩ := hr
        obtain ⟨t, ht, hc⟩ := turnStep_hist B dec tl a h c _ hstep
        exact ⟨t, by simpa [stepHistory] using ht, by omega⟩
    · next a1 h1 c1 hstep =>
        obtain ⟨t2, ht2, hc2⟩ := ih a1 h1 c1 a' h' c' hr
        obtain ⟨t1, ht1, hc1⟩ := turnStep_hist B dec tl a h c _ hstep
        refine ⟨t1 ++ t2, ?_, ?_⟩
        · rw [ht2, show h1 = h ++ t1 from by simpa [stepHistory] using ht1,
            List.append_assoc]
        · rw [countAssistant_append]; omega

/-- Claim C6, witness: three calls — a handoff to `B1`, a handoff to
`B2`, then a plain-text tool.  The final agent is `B2`: the later
handoff overwrote the earlier and the agent-less outcome did not clear
it. -/
theorem claim_C6_witness :
    handleCallsFrom decJ exMapHandoff ({} : TaskResponse String)
        [exCallB1, exCallB2, exCallPlain] = .ok exHandoffResult ∧
    exHandoffResult.agent
      = [exCallB1, exCallB2, exCallPlain].foldl
          (fun acc tc => lastWins acc (callAgent decJ exMapHandoff tc))
          ({} : TaskResponse String).agent :=
  ⟨rfl, claim_C6_thm String decJ exMapHandoff [exCallB1, exCallB2, exCallPlain]
    {} exHandoffResult rfl⟩

/-- Claim C8: the run loop is bounded by the configured maximum — any
successful run returns a message slice with at most `max_interactions`
assistant messages (each loop iteration appends exactly one, so this
counts the turns, whatever the backend returns), and exhausting the
budget is not an error: at fuel zero the loop falls out of the `while`
and returns the accumulated agent, history and context normally. -/
theorem claim_C8_thm : ∀ (V : Type) (cfg : AgentConfig) (B : Backend)
    (dec : String → Option (Ctx V)) (seed : List Message) (a : Agent V)
    (q : String) (c : Option (Ctx V)) (r : TaskResponse V),
    (run cfg B dec seed a q c = .ok r →
      countAssistant r.messages ≤ cfg.max_interactions) ∧
    (∀ (a' : Agent V) (h' : List Message) (c' : Ctx V),
      runLoop B dec cfg.token_limit 0 a' h' c' = .ok (a', h', c')) := by
  intro V cfg B dec seed a q c r
  constructor
  · intro hr
    unfold run at hr
    split at hr
    · simp at hr
    · next a1 h1 c1 hloop =>
        simp only [Except.ok.injEq] at hr
        subst hr
        obtain ⟨t, ht, hc⟩ :=
          runLoop_hist B dec cfg.token_limit cfg.max_interactions a _ _ a1 h1 c1 hloop
        show countAssistant (h1.drop (seed ++ [userMessage q]).length) ≤ cfg.max_interactions
        rw [ht, List.drop_left]
        exact hc
  · intro a' h' c'
    rfl

/-- Claim C8, witness: a three-interaction run against a backend that
requests a tool call on every turn terminates normally with exactly
three assistant messages. -/
theorem claim_C8_witness : countAssistant exRunResultTools.messages ≤ 3 :=
  (claim_C8_thm String { max_interactions := 3, token_limit := 10 } exBackendTools decJ []
    exAgentTools "q" none exRunResultTools).1 rfl

/-- Claim C9: the history at the start of a run is the seeded history
plus one new user message carrying the query, and the messages a
successful run returns are exactly the slice appended past that prefix:
the final history is the start-of-run history followed by the returned
messages, whose count is the number of messages appended after it — the
seeded prefix is never included. -/
theorem claim_C9_thm : ∀ (V : Type) (cfg : AgentConfig) (B : Backend)
    (dec : String → Option (Ctx V)) (seed : List Message) (a : Agent V)
    (q : String) (c : Option (Ctx V)) (r : TaskResponse V),
    run cfg B dec seed a q c = .ok r →
    ∃ (a' : Agent V) (h' : List Message) (c' : Ctx V),
      runLoop B dec cfg.token_limit cfg.max_interactions a
          (seed ++ [userMessage q]) (c.getD []) = .ok (a', h', c') ∧
      h' = (seed ++ [userMessage q]) ++ r.messages ∧
      r.messages.length = h'.length - (seed ++ [userMessage q]).length := by
  intro V cfg B dec seed a q c r hr
  unfold run at hr
  split at hr
  · simp at hr
  · next a1 h1 c1 hloop =>
      simp only [Except.ok.injEq] at hr
      subst hr
      obtain ⟨t, ht, -⟩ :=
        runLoop_hist B dec cfg.token_limit cfg.max_interactions a _ _ a1 h1 c1 hloop
      refine ⟨a1, h1, c1, hloop, ?_, ?_⟩
      · show h1 = (seed ++ [userMessage q]) ++ h1.drop (seed ++ [userMessage q]).length
        rw [ht, List.drop_left]
      · show (h1.drop (seed ++ [userMessage q]).length).length
            = h1.length - (seed ++ [userMessage q]).length
        rw [ht, List.drop_left, List.length_append]
        omega

/-- Claim C9, witness: the three-turn tool run from an empty seeded
history. -/
theorem claim_C9_witness :
    ∃ (a' : Agent String) (h' : List Message) (c' : Ctx String),
      runLoop exBackendTools decJ 10 3 exAgentTools
          (([] : List Message) ++ [userMessage "q"]) ((none : Option (Ctx String)).getD [])
        = .ok (a', h', c') ∧
      h' = (([] : List Message) ++ [userMessage "q"]) ++ exRunResultTools.messages ∧
      exRunResultTools.messages.length
        = h'.length - (([] : List Message) ++ [userMessage "q"]).length :=
  claim_C9_thm String { max_interactions := 3, token_limit := 10 } exBackendTools decJ []
    exAgentTools "q" none exRunResultTools rfl

/-- Claim C5: a tool-call request addressed to a registered tool whose
argument string fails JSON decoding makes the whole run raise the parse
error (`json.loads` in `__execute_tool` is not caught anywhere), and no
tool-result message is appended for that call — the error return carries
no messages. -/
theorem claim_C5_thm : ∀ (V : Type) (B : Backend) (dec : String → Option (Ctx V))
    (cfg : AgentConfig) (seed : List Message) (a : Agent V) (q : String)
    (c : Option (Ctx V)) (n : Nat) (fns : List (ToolDef V)) (tc : ToolCallReq)
    (rest : List ToolCallReq) (f : ToolDef V),
    cfg.max_interactions = n + 1 →
    a.functions = some fns →
    a.response_model = none →
    (∀ p, (B p).choiceMsg.tool_calls = some (tc :: rest)) →
    dictGet (buildMap fns) tc.name = some f →
    dec tc.arguments = none →
    run cfg B dec seed a q c = .error .argumentParse := by
  intro V B dec cfg seed a q c n fns tc rest f hmax hfns hrm hB hlook hdec
  have hstep : ∀ (h : List Message) (cv : Ctx V),
      turnStep B dec cfg.token_limit a h cv = .error .argumentParse := by
    intro h cv
    simp [turnStep, createInferenceRequest, tools_in_json, hfns, hrm, responseMsg, hB,
      truthyCalls, handleToolCalls, handleCallsFrom, handleCall, hlook, hdec]
  unfold run
  rw [hmax]
  simp [runLoop, hstep]

/-- Claim C5, witness: `exBackendBadArgs` requests the registered tool
`t1` with the undecodable argument string `"bad"`. -/
theorem claim_C5_witness :
    run { max_interactions := 3, token_limit := 10 } exBackendBadArgs decJ []
        exAgentTools "q" none = .error .argumentParse :=
  claim_C5_thm String exBackendBadArgs decJ { max_interactions := 3, token_limit := 10 }
    [] exAgentTools "q" none 2 [exTool] ⟨"id1", "t1", "bad"⟩ [] exTool
    rfl rfl rfl (fun _ => rfl) rfl rfl

/-- Claim C3 (amended): a turn with no tool calls whose `next_agent`
policy function returns an outcome carrying no agent is NOT terminal —
the loop continues with the SAME active agent (runner.py line 127's bare
`continue`), so the run only stops via a later terminal condition or the
turn budget; only an absent (empty) policy makes such a turn terminal. -/
theorem claim_C3_amended : ∀ (V : Type) (B : Backend) (dec : String → Option (Ctx V))
    (tl : Nat) (a : Agent V) (h : List Message) (c : Ctx V)
    (f : Ctx V → Message → NextRet V) (rest : List (NextStep V))
    (fns : List (ToolDef V)) (v : String) (cv : Ctx V),
    a.functions = some fns →
    a.next_agent = NextStep.func f :: rest →
    (∀ m, f c m = .funcResult v none cv) →
    (a.response_model.isSome = true ∨ ∀ p, (B p).choiceMsg.tool_calls = none) →
    ∃ m', turnStep B dec tl a h c
        = .ok (.cont a (h ++ [m']) (mergeIfTruthy c cv)) := by
  intro V B dec tl a h c f rest fns v cv hfns hna hf hside
  cases hq : createInferenceRequest a h c tl with
  | error e =>
    exfalso
    simp [createInferenceRequest, tools_in_json, hfns] at hq
  | ok p0 =>
    cases hrm : a.response_model with
    | some s =>
      refine ⟨responseMsg a (B (adjustParams a p0)), ?_⟩
      simp [turnStep, hq, hrm, responseMsg, truthyCalls, hna, hf]
    | none =>
      rcases hside with hs | hB
      · rw [hrm] at hs
        simp at hs
      · refine ⟨responseMsg a (B (adjustParams a p0)), ?_⟩
        simp [turnStep, hq, hrm, responseMsg, hB, truthyCalls, hna, hf]

/-- Claim C3 (amended), witness: the structured agent `exAgentPolicy`
whose policy always returns an agent-less outcome — the step continues
with `exAgentPolicy` itself. -/
theorem claim_C3_witness :
    ∃ m', turnStep exBackendPlain decJ 10 exAgentPolicy [] []
        = .ok (.cont exAgentPolicy ([] ++ [m']) (mergeIfTruthy [] [])) :=
  claim_C3_amended String exBackendPlain decJ 10 exAgentPolicy [] []
    (fun _ _ => .funcResult "no" none []) [] [] "no" []
    rfl rfl (fun _ => rfl) (Or.inl rfl)

end Sensai
